import Mathlib

/-
  Shallow embedding of the student attendance application (src/app.py).

  The persistent state (tables `students` and `attendance_records`) is modelled
  as lists of structures; SQL statements become list operations; the attendance
  POST handler becomes the function `applyDay`; Python string comparison,
  `strptime('%Y-%m-%d')`, `date.weekday()`, `str.strip`, `float()`, `min`/`max`
  are modelled explicitly below.
-/

set_option maxHeartbeats 1000000

namespace AttendApp

/-! ### Python primitives -/

/-- Lexicographic-by-code-point comparison of character lists, modelling
CPython's `str.__lt__` (used by `date_str > today_str` in the attendance
route, with the arguments flipped). -/
def pyLtChars : List Char → List Char → Bool
  | [], [] => false
  | [], _ :: _ => true
  | _ :: _, [] => false
  | x :: xs, y :: ys =>
    if x.toNat < y.toNat then true
    else if y.toNat < x.toNat then false
    else pyLtChars xs ys

/-- Python string strict less-than. -/
def pyLt (a b : String) : Bool := pyLtChars a.data b.data

/-- ASCII whitespace, as stripped by Python's `str.strip()` (the Unicode
whitespace beyond ASCII is irrelevant to the validated inputs). -/
def isPySpace (c : Char) : Bool :=
  c == ' ' || c == '\t' || c == '\n' || c == '\r' || c == '\x0b' || c == '\x0c'

/-- Python `str.strip()`. -/
def pyStrip (s : String) : String :=
  ⟨((s.data.dropWhile isPySpace).reverse.dropWhile isPySpace).reverse⟩

/-- Python `str.upper()` (ASCII; coincides with CPython on the characters the
roll-number pattern admits). -/
def pyUpper (s : String) : String := ⟨s.data.map Char.toUpper⟩

/-! ### Calendar arithmetic (`datetime.strptime('%Y-%m-%d')`, `.weekday()`) -/

/-- ASCII decimal digit test. -/
def isDigit (c : Char) : Bool := decide ('0' ≤ c) && decide (c ≤ '9')

/-- Numeric value of an ASCII digit character. -/
def digitVal (c : Char) : Nat := c.toNat - 48

/-- The ASCII digit character of `n % 10`. -/
def dChar (n : Nat) : Char := Char.ofNat (48 + n % 10)

/-- The characters of the zero-padded `YYYY-MM-DD` rendering produced by
`strftime('%Y-%m-%d')` for years up to 9999. -/
def canonChars (y m d : Nat) : List Char :=
  [dChar (y / 1000), dChar (y / 100), dChar (y / 10), dChar y, '-',
   dChar (m / 10), dChar m, '-', dChar (d / 10), dChar d]

/-- The zero-padded `YYYY-MM-DD` date string. -/
def canon (y m d : Nat) : String := ⟨canonChars y m d⟩

/-- Gregorian leap year (as in Python's `datetime`). -/
def isLeap (y : Nat) : Bool := y % 4 == 0 && (y % 100 != 0 || y % 400 == 0)

/-- Number of days in a month (Python `calendar.monthrange(y, m).1` /
`datetime`'s internal `_days_in_month`). -/
def daysInMonth (y m : Nat) : Nat :=
  if m = 2 then (if isLeap y then 29 else 28)
  else if m = 4 ∨ m = 6 ∨ m = 9 ∨ m = 11 then 30
  else 31

/-- Days before January 1 of year `y` in the proleptic Gregorian calendar
(Python `datetime`'s `_days_before_year`). -/
def daysBeforeYear (y : Nat) : Nat :=
  (y - 1) * 365 + (y - 1) / 4 - (y - 1) / 100 + (y - 1) / 400

/-- Days in year `y` before the first of month `m`
(Python `datetime`'s `_days_before_month`). -/
def daysBeforeMonth (y : Nat) : Nat → Nat
  | 0 => 0
  | m + 1 => if m = 0 then 0 else daysBeforeMonth y m + daysInMonth y m

/-- Python `date(y, m, d).toordinal()`. -/
def toOrdinal (y m d : Nat) : Nat := daysBeforeYear y + daysBeforeMonth y m + d

/-- Python `date(y, m, d).weekday()`: Monday = 0, ..., Sunday = 6. -/
def weekday (y m d : Nat) : Nat := (toOrdinal y m d + 6) % 7

/-- A `(y, m, d)` triple `datetime.date` accepts (year 1..9999). -/
@[reducible] def ValidDate (y m d : Nat) : Prop :=
  1 ≤ y ∧ y ≤ 9999 ∧ 1 ≤ m ∧ m ≤ 12 ∧ 1 ≤ d ∧ d ≤ daysInMonth y m

/-- CPython `_strptime`'s `%m` two-digit alternative `1[0-2]|0[1-9]`. -/
def month2valid (a b : Char) : Bool :=
  (a == '1' && decide ('0' ≤ b) && decide (b ≤ '2')) ||
  (a == '0' && decide ('1' ≤ b) && decide (b ≤ '9'))

/-- CPython `_strptime`'s `%m` one-digit alternative `[1-9]`. -/
def month1valid (a : Char) : Bool := decide ('1' ≤ a) && decide (a ≤ '9')

/-- CPython `_strptime`'s `%d` two-digit alternatives `3[01]|[12]\d|0[1-9]`. -/
def day2valid (a b : Char) : Bool :=
  (a == '3' && (b == '0' || b == '1')) ||
  ((a == '1' || a == '2') && isDigit b) ||
  (a == '0' && decide ('1' ≤ b) && decide (b ≤ '9'))

/-- CPython `_strptime`'s `%d` one-digit alternative `[1-9]`. -/
def day1valid (a : Char) : Bool := decide ('1' ≤ a) && decide (a ≤ '9')

/-- Parse the `%m-%d` tail of `strptime('%Y-%m-%d')`, honouring the ordered
regex alternatives (month and day may each be one or two digits; the whole
remainder must be consumed). -/
def parseMD : List Char → Option (Nat × Nat)
  | [a, b, c, e, f] =>
    if c == '-' && month2valid a b && day2valid e f then
      some (digitVal a * 10 + digitVal b, digitVal e * 10 + digitVal f)
    else none
  | [a, b, c, e] =>
    if c == '-' && month2valid a b && day1valid e then
      some (digitVal a * 10 + digitVal b, digitVal e)
    else if b == '-' && month1valid a && day2valid c e then
      some (digitVal a, digitVal c * 10 + digitVal e)
    else none
  | [a, c, e] =>
    if c == '-' && month1valid a && day1valid e then some (digitVal a, digitVal e)
    else none
  | _ => none

/-- `datetime.strptime(s, '%Y-%m-%d')` on the character list: `%Y` is exactly
four digits, then `-`, then the `%m-%d` tail; the resulting day must exist in
the month and the year must be at least `MINYEAR = 1`, else `ValueError`
(modelled as `none`). -/
def parseDateChars : List Char → Option (Nat × Nat × Nat)
  | y1 :: y2 :: y3 :: y4 :: c :: rest =>
    if isDigit y1 && isDigit y2 && isDigit y3 && isDigit y4 && c == '-' then
      match parseMD rest with
      | some (m, d) =>
        let y := digitVal y1 * 1000 + digitVal y2 * 100 + digitVal y3 * 10 + digitVal y4
        if 1 ≤ y ∧ d ≤ daysInMonth y m then some (y, m, d) else none
      | none => none
    else none
  | _ => none

/-- `datetime.strptime(s, '%Y-%m-%d')`; `none` models `ValueError`. -/
def parseDate (s : String) : Option (Nat × Nat × Nat) := parseDateChars s.data

/-! ### Python `float()` and `min`/`max` (marks handling) -/

/-- A Python float value, with rationals standing for the finite values
(decimal literals are taken at their exact value). -/
inductive PyFloat where
  | finite (q : ℚ)
  | inf
  | ninf
  | nan
deriving DecidableEq

/-- Value of a digit string. -/
def digitsVal (ds : List Char) : Nat := ds.foldl (fun a c => a * 10 + digitVal c) 0

/-- Exponent part of a float literal: optional sign then at least one digit,
consuming the whole remainder. -/
def parseExp (cs : List Char) : Option Int :=
  let sgnRest : Int × List Char :=
    match cs with
    | '+' :: t => (1, t)
    | '-' :: t => (-1, t)
    | t => (1, t)
  let ds := sgnRest.2.takeWhile isDigit
  let rest := sgnRest.2.dropWhile isDigit
  if ds.isEmpty || !rest.isEmpty then none
  else some (sgnRest.1 * (digitsVal ds : Int))

/-- Unsigned decimal float literal: `digits [. digits] [e/E exp]`, needing at
least one digit in the integer or fractional part (underscore separators are
not modelled). The exact rational value `intpart.fracpart * 10 ^ exp` is
assembled as a single `mkRat` so that it evaluates by kernel reduction. -/
def parseDecimal (cs : List Char) : Option ℚ :=
  let ip := cs.takeWhile isDigit
  let r1 := cs.dropWhile isDigit
  let fpR : Option (List Char) × List Char :=
    match r1 with
    | '.' :: rest => (some (rest.takeWhile isDigit), rest.dropWhile isDigit)
    | _ => (none, r1)
  let f : List Char := (fpR.1).getD []
  let hasDigits := !ip.isEmpty || !f.isEmpty
  let num : Nat := digitsVal ip * 10 ^ f.length + digitsVal f
  let den : Nat := 10 ^ f.length
  if !hasDigits then none
  else
    match fpR.2 with
    | [] => some (mkRat num den)
    | 'e' :: rest =>
      (parseExp rest).map fun e =>
        if 0 ≤ e then mkRat (num * 10 ^ e.toNat) den else mkRat num (den * 10 ^ (-e).toNat)
    | 'E' :: rest =>
      (parseExp rest).map fun e =>
        if 0 ≤ e then mkRat (num * 10 ^ e.toNat) den else mkRat num (den * 10 ^ (-e).toNat)
    | _ => none

/-- Python `float(s)`: strip whitespace, optional sign, then either an
`inf`/`infinity`/`nan` keyword (case-insensitive) or a decimal literal;
`none` models `ValueError`. -/
def pyFloatParse (s : String) : Option PyFloat :=
  let cs := ((s.data.dropWhile isPySpace).reverse.dropWhile isPySpace).reverse
  let signBody : Bool × List Char :=
    match cs with
    | '+' :: t => (false, t)
    | '-' :: t => (true, t)
    | t => (false, t)
  let body := signBody.2
  let lower := body.map Char.toLower
  if lower = "inf".data ∨ lower = "infinity".data then
    some (if signBody.1 then PyFloat.ninf else PyFloat.inf)
  else if lower = "nan".data then some PyFloat.nan
  else
    match parseDecimal body with
    | some q => some (.finite (if signBody.1 then -q else q))
    | none => none

/-- Python `<` on float values (`nan` compares false against everything). -/
def pyLtF : PyFloat → PyFloat → Bool
  | .finite a, .finite b => decide (a < b)
  | .nan, _ => false
  | _, .nan => false
  | .ninf, .ninf => false
  | .ninf, _ => true
  | _, .ninf => false
  | .inf, _ => false
  | .finite _, .inf => true

/-- Python `min(a, b)`: keeps `a` unless `b < a`. -/
def pyMin (a b : PyFloat) : PyFloat := if pyLtF b a then b else a

/-- Python `max(a, b)`: keeps `a` unless `a < b`. -/
def pyMax (a b : PyFloat) : PyFloat := if pyLtF a b then b else a

/-- The value the marks route stores for one raw input string:
`float(mark_str)` clamped by `max(0, min(100, marks_val))`, with
`ValueError` giving 0 (app.py lines 314-319). -/
def marksOf (s : String) : PyFloat :=
  match pyFloatParse s with
  | some v => pyMax (.finite 0) (pyMin (.finite 100) v)
  | none => .finite 0

/-! ### Data model (tables `students` and `attendance_records`) -/

/-- A row of the `students` table. -/
structure Student where
  id : Nat
  roll_no : String
  name : String
  semester : Int
  marks : PyFloat
  total_attendance : Int
  total_classes : Int
deriving DecidableEq

/-- A row of the `attendance_records` table (the AUTOINCREMENT `id` column is
never consulted and is omitted). -/
structure Record where
  date : String
  student_id : Nat
  status : String
deriving DecidableEq

/-- The persistent store: both tables in insertion order, plus the next
AUTOINCREMENT student id. -/
structure DB where
  students : List Student
  records : List Record
  nextId : Nat
deriving DecidableEq

/-- The freshly initialised database (`init_db`): empty tables, ids from 1. -/
def initDB : DB := { students := [], records := [], nextId := 1 }

/-! ### Validation utilities -/

/-- Full match of the regex `^[A-Za-z0-9\-]{3,15}$` from
`validate_roll_number`. -/
def isRollChar (c : Char) : Bool :=
  (decide ('A' ≤ c) && decide (c ≤ 'Z')) || (decide ('a' ≤ c) && decide (c ≤ 'z')) ||
  (decide ('0' ≤ c) && decide (c ≤ '9')) || c == '-'

/-- Whether a string matches `[A-Za-z0-9\-]{3,15}` in full. -/
def rollPatternMatch (t : String) : Bool :=
  decide (3 ≤ t.data.length) && decide (t.data.length ≤ 15) && t.data.all isRollChar

/-- `validate_roll_number` (app.py lines 54-64). -/
def validate_roll_number (roll_no : String) : Bool × String :=
  if roll_no = "" ∨ pyStrip roll_no = "" then (false, "Roll number cannot be empty.")
  else if !rollPatternMatch (pyStrip roll_no) then
    (false, "Roll number must be 3-15 alphanumeric characters (hyphens allowed).")
  else (true, "Valid roll number.")

/-! ### Student add / delete -/

/-- The successful `INSERT INTO students` (defaults: marks 0, counters 0;
`id` from AUTOINCREMENT). -/
def addStudent (roll_no name : String) (semester : Int) (db : DB) : DB :=
  { db with
    students := db.students ++
      [{ id := db.nextId, roll_no := roll_no, name := name, semester := semester,
         marks := .finite 0, total_attendance := 0, total_classes := 0 }],
    nextId := db.nextId + 1 }

/-- The POST branch of the `students` route (app.py lines 143-178): strip the
inputs, validate roll number / semester / name, and insert the upper-cased
roll number unless it already exists (IntegrityError). The semester string
has already been parsed to an integer. -/
def students_post (roll_raw name_raw : String) (semester : Int) (db : DB) : DB :=
  let roll_no := pyStrip roll_raw
  let name := pyStrip name_raw
  if (validate_roll_number roll_no).1 = false then db
  else if semester < 1 ∨ 8 < semester then db
  else if name = "" then db
  else if db.students.any (fun s => s.roll_no == pyUpper roll_no) then db
  else addStudent (pyUpper roll_no) name semester db

/-- `delete_student` (app.py lines 186-195): delete the student's attendance
records, then the student row. -/
def delete_student (student_id : Nat) (db : DB) : DB :=
  { db with
    records := db.records.filter (fun r => !(r.student_id == student_id)),
    students := db.students.filter (fun s => !(s.id == student_id)) }

/-! ### The attendance reconciliation engine (`applyDay`) -/

/-- One step of the revert loop (app.py lines 229-238): decrement the owning
student's `total_classes`, and `total_attendance` too when the reverted
record was `present`. -/
def revertOne (r : Record) (ss : List Student) : List Student :=
  ss.map fun s =>
    if s.id = r.student_id then
      { s with
        total_classes := s.total_classes - 1,
        total_attendance :=
          if r.status = "present" then s.total_attendance - 1 else s.total_attendance }
    else s

/-- One step of the insert loop (app.py lines 247-255): increment
`total_classes`, and `total_attendance` when the submitted status is
`present`. -/
def incOne (status : String) (sid : Nat) (ss : List Student) : List Student :=
  ss.map fun s =>
    if s.id = sid then
      { s with
        total_classes := s.total_classes + 1,
        total_attendance :=
          if status = "present" then s.total_attendance + 1 else s.total_attendance }
    else s

/-- The database mutation of the attendance POST handler (app.py lines
223-256): revert and delete any records existing for the date, then, for each
student of the roster fetched at the top of the request, insert a record with
the submitted status (`absent` when the form omits the student) and bump the
counters. -/
def applyDayCore (dateStr : String) (statuses : Nat → String) (db : DB) : DB :=
  let existing := db.records.filter (fun r => r.date == dateStr)
  let reverted : List Student × List Record :=
    if existing.isEmpty then (db.students, db.records)
    else (existing.foldl (fun ss r => revertOne r ss) db.students,
          db.records.filter (fun r => !(r.date == dateStr)))
  { students := db.students.foldl (fun ss st => incOne (statuses st.id) st.id ss) reverted.1,
    records := reverted.2 ++
      db.students.map (fun st => { date := dateStr, student_id := st.id, status := statuses st.id }),
    nextId := db.nextId }

/-- Outcome of an attendance submission; `rejected` carries the flashed
reason. -/
inductive DayResult where
  | applied
  | rejected (reason : String)
deriving DecidableEq

/-- The attendance POST handler (app.py lines 205-256): reject dates
lexicographically after today, reject parseable dates falling on a Sunday
(a `ValueError` from `strptime` silently skips the weekday check), and
otherwise run the revert-and-reapply mutation. -/
def applyDay (todayStr dateStr : String) (statuses : Nat → String) (db : DB) :
    DayResult × DB :=
  if pyLt todayStr dateStr then (.rejected "Cannot mark attendance for future dates.", db)
  else
    match parseDate dateStr with
    | some (y, m, d) =>
      if weekday y m d = 6 then (.rejected "Attendance cannot be marked for Sunday.", db)
      else (.applied, applyDayCore dateStr statuses db)
    | none => (.applied, applyDayCore dateStr statuses db)

/-! ### Operation sequences -/

/-- The state-mutating operations the invariant claims quantify over. -/
inductive Op where
  | applyDayOp (todayStr dateStr : String) (statuses : Nat → String)
  | addStudentOp (roll_no name : String) (semester : Int)
  | deleteStudentOp (sid : Nat)

/-- Run one operation. -/
def runOp (db : DB) : Op → DB
  | .applyDayOp t d s => (applyDay t d s db).2
  | .addStudentOp r n sem => addStudent r n sem db
  | .deleteStudentOp sid => delete_student sid db

/-- Run a sequence of operations. -/
def runOps (ops : List Op) (db : DB) : DB := ops.foldl runOp db

/-! ### Counting helpers -/

/-- Number of `present` records of student `sid` in a record list. -/
def pcount (sid : Nat) (recs : List Record) : Nat :=
  recs.countP (fun r => r.student_id == sid && r.status == "present")

/-- Number of records of student `sid` in a record list. -/
def ccount (sid : Nat) (recs : List Record) : Nat :=
  recs.countP (fun r => r.student_id == sid)

/-- Number of roster entries with id `sid` whose submitted status is
`present`. -/
def ipcount (statuses : Nat → String) (sid : Nat) (iter : List Student) : Nat :=
  iter.countP (fun st => st.id == sid && statuses st.id == "present")

/-- Number of roster entries with id `sid`. -/
def iccount (sid : Nat) (iter : List Student) : Nat :=
  iter.countP (fun st => st.id == sid)

/-- Shift both counters of a student. -/
def bumpStudent (da dc : Int) (s : Student) : Student :=
  { s with total_attendance := s.total_attendance + da, total_classes := s.total_classes + dc }

/-! ### Monthly report (`attendance_report`, app.py lines 365-404) -/

/-- The date strings of every day of the month, as rendered by
`strftime('%Y-%m-%d')`. -/
def monthDates (y m : Nat) : List String :=
  (List.range (daysInMonth y m)).map (fun i => canon y m (i + 1))

/-- The records fetched for the month: SQL `date >= first AND date <= last`
(byte-wise TEXT comparison, which agrees with code-point comparison on these
ASCII strings). -/
def monthRecords (y m : Nat) (recs : List Record) : List Record :=
  recs.filter (fun r =>
    !pyLt r.date (canon y m 1) && !pyLt (canon y m (daysInMonth y m)) r.date)

/-- `attendance_map[d].get(sid)`: the dict is filled in fetch order, so a
later record for the same date and student overwrites an earlier one. -/
def attMapGet (fetched : List Record) (d : String) (sid : Nat) : Option String :=
  ((fetched.filter (fun r => r.date == d && r.student_id == sid)).getLast?).map (·.status)

/-- The per-student monthly pair `(present, total)` computed by
`attendance_report`. -/
def monthlyPct (y m : Nat) (recs : List Record) (sid : Nat) : Nat × Nat :=
  (((monthDates y m).filter
      (fun d => attMapGet (monthRecords y m recs) d sid == some "present")).length,
   ((monthDates y m).filter
      (fun d => attMapGet (monthRecords y m recs) d sid == some "present" ||
                attMapGet (monthRecords y m recs) d sid == some "absent")).length)

/-- Modelled from the spec: for each day of the month, the student counts
toward the numerator when a record for that day has status `present`, and
toward the denominator when any record for that day exists; days without a
record for the student count toward neither. -/
def specMonthlyPct (y m : Nat) (recs : List Record) (sid : Nat) : Nat × Nat :=
  (((monthDates y m).filter
      (fun d => recs.any (fun r => r.date == d && r.student_id == sid &&
                                   r.status == "present"))).length,
   ((monthDates y m).filter
      (fun d => recs.any (fun r => r.date == d && r.student_id == sid))).length)

/-- The per-student counter adjustment a day's submission performs. -/
def dayAdjust (dateStr : String) (statuses : Nat → String) (db : DB) (s : Student) :
    Student :=
  bumpStudent
    ((ipcount statuses s.id db.students : Int)
      - (pcount s.id (db.records.filter (fun r => r.date == dateStr)) : Int))
    ((iccount s.id db.students : Int)
      - (ccount s.id (db.records.filter (fun r => r.date == dateStr)) : Int)) s

/-- The state invariant maintained by every operation: counters are the
materialised aggregates of the record table, all ids are below the
AUTOINCREMENT counter, student ids are unique, and no (date, student) pair
owns two records. -/
def Inv (db : DB) : Prop :=
  (∀ s ∈ db.students,
      s.total_attendance = (pcount s.id db.records : Int) ∧
      s.total_classes = (ccount s.id db.records : Int))
  ∧ (∀ s ∈ db.students, s.id < db.nextId)
  ∧ (∀ r ∈ db.records, r.student_id < db.nextId)
  ∧ db.students.Pairwise (fun a b => a.id ≠ b.id)
  ∧ db.records.Pairwise (fun a b => ¬(a.date = b.date ∧ a.student_id = b.student_id))

/-! ### Helper lemmas -/

/-- Clamping a finite float by `max(0, min(100, v))` is `max 0 (min 100 q)`. -/
lemma pyClamp_finite (q : ℚ) :
    pyMax (.finite 0) (pyMin (.finite 100) (.finite q)) = .finite (max 0 (min 100 q)) := by
  rcases lt_or_le q 100 with h1 | h1
  · have hmin : pyMin (.finite 100) (.finite q) = .finite q := by
      simp [pyMin, pyLtF, h1]
    rw [hmin, min_eq_right h1.le]
    rcases lt_or_le (0 : ℚ) q with h2 | h2
    · simp [pyMax, pyLtF, h2, max_eq_right h2.le]
    · simp [pyMax, pyLtF, not_lt.mpr h2, max_eq_left h2]
  · have hmin : pyMin (.finite 100) (.finite q) = .finite 100 := by
      simp [pyMin, pyLtF, not_lt.mpr h1]
    rw [hmin, min_eq_left h1]
    norm_num [pyMax, pyLtF]

lemma bumpStudent_id (da dc : Int) (s : Student) : (bumpStudent da dc s).id = s.id := rfl

lemma bumpStudent_zero (s : Student) : bumpStudent 0 0 s = s := by
  cases s
  simp [bumpStudent]

lemma bumpStudent_congr {da dc da' dc' : Int} (s : Student) (h1 : da = da') (h2 : dc = dc') :
    bumpStudent da dc s = bumpStudent da' dc' s := by
  rw [h1, h2]

lemma bumpStudent_bump (da dc da' dc' : Int) (s : Student) :
    bumpStudent da' dc' (bumpStudent da dc s) = bumpStudent (da + da') (dc + dc') s := by
  cases s
  simp [bumpStudent, add_assoc]

/-- The revert loop, folded over the existing records of the day, subtracts
from each student the number of that student's reverted records. -/
lemma revert_foldl (recs : List Record) (ss : List Student) :
    recs.foldl (fun a r => revertOne r a) ss
      = ss.map fun s =>
          bumpStudent (-(pcount s.id recs : Int)) (-(ccount s.id recs : Int)) s := by
  induction recs generalizing ss with
  | nil =>
    simp only [List.foldl_nil, pcount, ccount, List.countP_nil, Nat.cast_zero, neg_zero]
    rw [funext bumpStudent_zero]
    simp
  | cons r rs ih =>
    rw [List.foldl_cons, ih]
    unfold revertOne
    rw [List.map_map]
    refine (List.map_congr_left fun s _ => ?_).symm
    simp only [Function.comp]
    by_cases h : s.id = r.student_id
    · have hb : (r.student_id == s.id) = true := by simp [h]
      rw [if_pos h]
      by_cases hp : r.status = "present"
      · have hbp : (r.status == "present") = true := by simp [hp]
        simp only [if_pos hp, pcount, ccount, List.countP_cons, hb, hbp, Bool.and_self,
          if_true, bumpStudent]
        cases s
        simp only [Student.mk.injEq, true_and]
        constructor <;> push_cast <;> ring
      · have hbp : (r.status == "present") = false := by simp [hp]
        simp only [if_neg hp, pcount, ccount, List.countP_cons, hb, hbp, Bool.and_false,
          Bool.and_true, if_false, bumpStudent]
        cases s
        simp only [Student.mk.injEq, true_and]
        constructor <;> push_cast <;> ring
    · have hb : (r.student_id == s.id) = false := by
        simp only [beq_eq_false_iff_ne, ne_eq]
        intro e
        exact h e.symm
      rw [if_neg h]
      simp only [pcount, ccount, List.countP_cons, hb, Bool.false_and, if_false]
      simp

/-- The insert loop, folded over the roster, adds to each student the number
of roster entries carrying that student's id (with the `present` ones counted
into `total_attendance`). -/
lemma inc_foldl (statuses : Nat → String) (iter ss : List Student) :
    iter.foldl (fun a st => incOne (statuses st.id) st.id a) ss
      = ss.map fun s =>
          bumpStudent (ipcount statuses s.id iter : Int) (iccount s.id iter : Int) s := by
  induction iter generalizing ss with
  | nil =>
    simp only [List.foldl_nil, ipcount, iccount, List.countP_nil, Nat.cast_zero]
    rw [funext bumpStudent_zero]
    simp
  | cons st sts ih =>
    rw [List.foldl_cons, ih]
    unfold incOne
    rw [List.map_map]
    refine (List.map_congr_left fun s _ => ?_).symm
    simp only [Function.comp]
    by_cases h : s.id = st.id
    · have hb : (st.id == s.id) = true := by simp [h]
      rw [if_pos h]
      by_cases hp : statuses st.id = "present"
      · have hbp : (statuses st.id == "present") = true := by simp [hp]
        simp only [if_pos hp, ipcount, iccount, List.countP_cons, hb, hbp, Bool.and_self,
          if_true, bumpStudent]
        cases s
        simp only [Student.mk.injEq, true_and]
        constructor <;> push_cast <;> ring
      · have hbp : (statuses st.id == "present") = false := by simp [hp]
        simp only [if_neg hp, ipcount, iccount, List.countP_cons, hb, hbp, Bool.and_false,
          Bool.and_true, if_false, bumpStudent]
        cases s
        simp only [Student.mk.injEq, true_and]
        constructor <;> push_cast <;> ring
    · have hb : (st.id == s.id) = false := by
        simp only [beq_eq_false_iff_ne, ne_eq]
        intro e
        exact h e.symm
      rw [if_neg h]
      simp only [ipcount, iccount, List.countP_cons, hb, Bool.false_and, if_false]
      simp

/-- Closed form of the day mutation: the students are adjusted pointwise, the
day's records are replaced by one fresh record per roster entry, and the id
counter is untouched. -/
lemma applyDayCore_eq (dateStr : String) (statuses : Nat → String) (db : DB) :
    applyDayCore dateStr statuses db
      = { students := db.students.map (dayAdjust dateStr statuses db),
          records := db.records.filter (fun r => !(r.date == dateStr)) ++
            db.students.map
              (fun st => { date := dateStr, student_id := st.id, status := statuses st.id }),
          nextId := db.nextId } := by
  by_cases hemp : (db.records.filter (fun r => r.date == dateStr)).isEmpty = true
  · have hnil : db.records.filter (fun r => r.date == dateStr) = [] :=
      List.isEmpty_iff.mp hemp
    have hall : db.records.filter (fun r => !(r.date == dateStr)) = db.records := by
      rw [List.filter_eq_self]
      intro r hr
      have hx := List.filter_eq_nil_iff.mp hnil r hr
      simpa using hx
    simp only [applyDayCore, hemp, if_true]
    rw [inc_foldl, hall]
    refine congrArg₂ (fun a b => DB.mk a b db.nextId) ?_ rfl
    refine List.map_congr_left fun s _ => ?_
    unfold dayAdjust
    rw [hnil]
    refine bumpStudent_congr s ?_ ?_ <;> simp [pcount, ccount]
  · simp only [applyDayCore, hemp, Bool.false_eq_true, if_false]
    rw [revert_foldl, inc_foldl, List.map_map]
    refine congrArg₂ (fun a b => DB.mk a b db.nextId) ?_ rfl
    refine List.map_congr_left fun s _ => ?_
    simp only [Function.comp, bumpStudent_id, bumpStudent_bump]
    unfold dayAdjust
    refine bumpStudent_congr s (by ring) (by ring)

lemma ipcount_map_bumpf (S' : Nat → String) (sid : Nat) (f g : Student → Int)
    (l : List Student) :
    ipcount S' sid (l.map fun s => bumpStudent (f s) (g s) s) = ipcount S' sid l := by
  unfold ipcount
  rw [List.countP_map]
  rfl

lemma iccount_map_bumpf (sid : Nat) (f g : Student → Int) (l : List Student) :
    iccount sid (l.map fun s => bumpStudent (f s) (g s) s) = iccount sid l := by
  unfold iccount
  rw [List.countP_map]
  rfl

lemma pcount_map_mk (dateStr : String) (statuses : Nat → String) (sid : Nat)
    (l : List Student) :
    pcount sid (l.map fun st =>
        ({ date := dateStr, student_id := st.id, status := statuses st.id } : Record))
      = ipcount statuses sid l := by
  unfold pcount ipcount
  rw [List.countP_map]
  rfl

lemma ccount_map_mk (dateStr : String) (statuses : Nat → String) (sid : Nat)
    (l : List Student) :
    ccount sid (l.map fun st =>
        ({ date := dateStr, student_id := st.id, status := statuses st.id } : Record))
      = iccount sid l := by
  unfold ccount iccount
  rw [List.countP_map]
  rfl

/-- Re-submitting the same date replaces the previous submission: the second
mutation lands on the same state as if the first had never happened. -/
lemma applyDayCore_twice (dateStr : String) (S1 S2 : Nat → String) (db : DB) :
    applyDayCore dateStr S2 (applyDayCore dateStr S1 db) = applyDayCore dateStr S2 db := by
  rw [applyDayCore_eq dateStr S1 db, applyDayCore_eq, applyDayCore_eq dateStr S2 db]
  have hFnew : (db.records.filter (fun r => !(r.date == dateStr)) ++
        db.students.map (fun st =>
          ({ date := dateStr, student_id := st.id, status := S1 st.id } : Record))).filter
        (fun r => r.date == dateStr)
      = db.students.map (fun st =>
          ({ date := dateStr, student_id := st.id, status := S1 st.id } : Record)) := by
    rw [List.filter_append, List.filter_filter]
    have h1 : db.records.filter (fun r => (r.date == dateStr) && !(r.date == dateStr)) = [] := by
      rw [List.filter_eq_nil_iff]
      intro r _
      simp
    have h2 : (db.students.map (fun st =>
          ({ date := dateStr, student_id := st.id, status := S1 st.id } : Record))).filter
          (fun r => r.date == dateStr)
        = db.students.map (fun st =>
            ({ date := dateStr, student_id := st.id, status := S1 st.id } : Record)) := by
      rw [List.filter_eq_self]
      intro r hr
      rcases List.mem_map.mp hr with ⟨st, _, rfl⟩
      simp
    rw [h1, h2, List.nil_append]
  have hFold : (db.records.filter (fun r => !(r.date == dateStr)) ++
        db.students.map (fun st =>
          ({ date := dateStr, student_id := st.id, status := S1 st.id } : Record))).filter
        (fun r => !(r.date == dateStr))
      = db.records.filter (fun r => !(r.date == dateStr)) := by
    rw [List.filter_append, List.filter_filter]
    have h1 : db.records.filter (fun r => !(r.date == dateStr) && !(r.date == dateStr))
        = db.records.filter (fun r => !(r.date == dateStr)) := by
      refine List.filter_congr fun r _ => ?_
      simp
    have h2 : (db.students.map (fun st =>
          ({ date := dateStr, student_id := st.id, status := S1 st.id } : Record))).filter
          (fun r => !(r.date == dateStr)) = [] := by
      rw [List.filter_eq_nil_iff]
      intro r hr
      rcases List.mem_map.mp hr with ⟨st, _, rfl⟩
      simp
    rw [h1, h2, List.append_nil]
  refine congrArg₂ (fun a b => DB.mk a b db.nextId) ?_ ?_
  · rw [List.map_map]
    refine List.map_congr_left fun s _ => ?_
    simp only [Function.comp]
    unfold dayAdjust
    simp only [hFnew, bumpStudent_id, pcount_map_mk, ccount_map_mk, ipcount_map_bumpf,
      iccount_map_bumpf]
    rw [bumpStudent_bump]
    refine bumpStudent_congr s (by ring) (by ring)
  · rw [hFold, List.map_map]
    rfl

/-- Applying a day twice leaves the same state as applying the second
submission alone, whatever the two status mappings are (the guards agree on
both calls since date and today coincide). -/
lemma applyDay_snd_twice (t d : String) (S1 S2 : Nat → String) (db : DB) :
    (applyDay t d S2 (applyDay t d S1 db).2).2 = (applyDay t d S2 db).2 := by
  unfold applyDay
  by_cases h1 : pyLt t d = true
  · simp [h1]
  · rcases hp : parseDate d with _ | ⟨y, m, dd⟩
    · simp only [h1, hp, Bool.false_eq_true, if_false]
      exact applyDayCore_twice d S1 S2 db
    · by_cases hw : weekday y m dd = 6
      · simp [h1, hp, hw]
      · simp only [h1, hp, hw, Bool.false_eq_true, if_false]
        exact applyDayCore_twice d S1 S2 db

lemma bumpStudent_ta (da dc : Int) (s : Student) :
    (bumpStudent da dc s).total_attendance = s.total_attendance + da := rfl

lemma bumpStudent_tc (da dc : Int) (s : Student) :
    (bumpStudent da dc s).total_classes = s.total_classes + dc := rfl

lemma countP_split {α : Type} (p q : α → Bool) (l : List α) :
    l.countP p = l.countP (fun a => p a && q a) + l.countP (fun a => p a && !q a) := by
  induction l with
  | nil => rfl
  | cons a t ih =>
    simp only [List.countP_cons, ih]
    cases hp : p a <;> cases hq : q a <;> simp <;> omega

lemma pcount_append (sid : Nat) (l1 l2 : List Record) :
    pcount sid (l1 ++ l2) = pcount sid l1 + pcount sid l2 := by
  unfold pcount
  exact List.countP_append _ _ _

lemma ccount_append (sid : Nat) (l1 l2 : List Record) :
    ccount sid (l1 ++ l2) = ccount sid l1 + ccount sid l2 := by
  unfold ccount
  exact List.countP_append _ _ _

/-- Splitting a student's record count at a date. -/
lemma pcount_split_date (sid : Nat) (d : String) (recs : List Record) :
    pcount sid recs
      = pcount sid (recs.filter fun r => r.date == d)
        + pcount sid (recs.filter fun r => !(r.date == d)) := by
  unfold pcount
  rw [List.countP_filter, List.countP_filter]
  exact countP_split _ _ recs

lemma ccount_split_date (sid : Nat) (d : String) (recs : List Record) :
    ccount sid recs
      = ccount sid (recs.filter fun r => r.date == d)
        + ccount sid (recs.filter fun r => !(r.date == d)) := by
  unfold ccount
  rw [List.countP_filter, List.countP_filter]
  exact countP_split _ _ recs

/-- A record list without duplicate (date, student) pairs has at most one
record for any given pair. -/
lemma countP_le_one_of_pairwise {recs : List Record}
    (h : recs.Pairwise (fun a b => ¬(a.date = b.date ∧ a.student_id = b.student_id)))
    (d : String) (sid : Nat) :
    recs.countP (fun r => r.date == d && r.student_id == sid) ≤ 1 := by
  induction recs with
  | nil => simp
  | cons r rs ih =>
    rw [List.pairwise_cons] at h
    obtain ⟨hr, htail⟩ := h
    rw [List.countP_cons]
    by_cases hp : (r.date == d && r.student_id == sid) = true
    · have hz : rs.countP (fun x => x.date == d && x.student_id == sid) = 0 := by
        rw [List.countP_eq_zero]
        intro x hx hpx
        simp only [Bool.and_eq_true, beq_iff_eq] at hp hpx
        exact hr x hx ⟨hp.1.trans hpx.1.symm, hp.2.trans hpx.2.symm⟩
      rw [hz, if_pos hp]
    · rw [if_neg hp]
      have := ih htail
      omega

lemma Inv_initDB : Inv initDB := by
  refine ⟨?_, ?_, ?_, ?_, ?_⟩ <;> simp [initDB]

lemma Inv_addStudent (roll name : String) (sem : Int) {db : DB} (h : Inv db) :
    Inv (addStudent roll name sem db) := by
  obtain ⟨hc, hsb, hrb, hsp, hrp⟩ := h
  refine ⟨?_, ?_, ?_, ?_, hrp⟩
  · intro s hs
    rcases List.mem_append.mp hs with hs | hs
    · exact hc s hs
    · rcases List.mem_singleton.mp hs with rfl
      have hp0 : pcount db.nextId db.records = 0 := by
        rw [pcount, List.countP_eq_zero]
        intro r hr hx
        simp only [Bool.and_eq_true, beq_iff_eq] at hx
        have := hrb r hr
        omega
      have hc0 : ccount db.nextId db.records = 0 := by
        rw [ccount, List.countP_eq_zero]
        intro r hr hx
        simp only [beq_iff_eq] at hx
        have := hrb r hr
        omega
      exact ⟨by simp [addStudent, hp0], by simp [addStudent, hc0]⟩
  · intro s hs
    rcases List.mem_append.mp hs with hs | hs
    · have := hsb s hs
      simp only [addStudent]
      omega
    · rcases List.mem_singleton.mp hs with rfl
      simp only [addStudent]
      omega
  · intro r hr
    have := hrb r hr
    simp only [addStudent]
    omega
  · simp only [addStudent]
    rw [List.pairwise_append]
    refine ⟨hsp, by simp, ?_⟩
    intro a ha b hb
    rcases List.mem_singleton.mp hb with rfl
    have := hsb a ha
    simp only [ne_eq]
    omega

lemma pcount_delete {sid sid' : Nat} (hne : sid' ≠ sid) (recs : List Record) :
    pcount sid' (recs.filter (fun r => !(r.student_id == sid))) = pcount sid' recs := by
  unfold pcount
  rw [List.countP_filter]
  refine List.countP_congr fun r _ => ?_
  simp only [Bool.and_eq_true, beq_iff_eq, Bool.not_eq_eq_eq_not, Bool.not_true,
    beq_eq_false_iff_ne, ne_eq]
  constructor
  · rintro ⟨⟨h1, h2⟩, _⟩
    exact ⟨h1, h2⟩
  · rintro ⟨h1, h2⟩
    exact ⟨⟨h1, h2⟩, by rw [h1]; exact hne⟩

lemma ccount_delete {sid sid' : Nat} (hne : sid' ≠ sid) (recs : List Record) :
    ccount sid' (recs.filter (fun r => !(r.student_id == sid))) = ccount sid' recs := by
  unfold ccount
  rw [List.countP_filter]
  refine List.countP_congr fun r _ => ?_
  simp only [Bool.and_eq_true, beq_iff_eq, Bool.not_eq_eq_eq_not, Bool.not_true,
    beq_eq_false_iff_ne, ne_eq]
  constructor
  · rintro ⟨h1, _⟩
    exact h1
  · intro h1
    exact ⟨h1, by rw [h1]; exact hne⟩

lemma Inv_delete (sid : Nat) {db : DB} (h : Inv db) : Inv (delete_student sid db) := by
  obtain ⟨hc, hsb, hrb, hsp, hrp⟩ := h
  refine ⟨?_, ?_, ?_, ?_, ?_⟩
  · intro s hs
    obtain ⟨hmem, hneb⟩ := List.mem_filter.mp hs
    have hne : s.id ≠ sid := by simpa using hneb
    obtain ⟨h1, h2⟩ := hc s hmem
    constructor
    · show _ = (pcount s.id (db.records.filter fun r => !(r.student_id == sid)) : Int)
      rw [pcount_delete hne, h1]
    · show _ = (ccount s.id (db.records.filter fun r => !(r.student_id == sid)) : Int)
      rw [ccount_delete hne, h2]
  · intro s hs
    exact hsb s (List.mem_filter.mp hs).1
  · intro r hr
    exact hrb r (List.mem_filter.mp hr).1
  · exact hsp.sublist (List.filter_sublist _)
  · exact hrp.sublist (List.filter_sublist _)

lemma Inv_applyDayCore (dateStr : String) (statuses : Nat → String) {db : DB}
    (h : Inv db) : Inv (applyDayCore dateStr statuses db) := by
  obtain ⟨hc, hsb, hrb, hsp, hrp⟩ := h
  rw [applyDayCore_eq]
  refine ⟨?_, ?_, ?_, ?_, ?_⟩
  · intro s hs
    rcases List.mem_map.mp hs with ⟨s0, hs0, rfl⟩
    obtain ⟨h1, h2⟩ := hc s0 hs0
    have hsP := pcount_split_date s0.id dateStr db.records
    have hsC := ccount_split_date s0.id dateStr db.records
    constructor
    · rw [show (dayAdjust dateStr statuses db s0).id = s0.id from rfl]
      show _ = (pcount s0.id ((db.records.filter fun r => !(r.date == dateStr)) ++
        db.students.map fun st =>
          ({ date := dateStr, student_id := st.id, status := statuses st.id } : Record)) : Int)
      rw [pcount_append, pcount_map_mk]
      unfold dayAdjust
      rw [bumpStudent_ta, h1]
      push_cast
      omega
    · rw [show (dayAdjust dateStr statuses db s0).id = s0.id from rfl]
      show _ = (ccount s0.id ((db.records.filter fun r => !(r.date == dateStr)) ++
        db.students.map fun st =>
          ({ date := dateStr, student_id := st.id, status := statuses st.id } : Record)) : Int)
      rw [ccount_append, ccount_map_mk]
      unfold dayAdjust
      rw [bumpStudent_tc, h2]
      push_cast
      omega
  · intro s hs
    rcases List.mem_map.mp hs with ⟨s0, hs0, rfl⟩
    exact hsb s0 hs0
  · intro r hr
    rcases List.mem_append.mp hr with hr | hr
    · exact hrb r (List.mem_filter.mp hr).1
    · rcases List.mem_map.mp hr with ⟨st, hst, rfl⟩
      exact hsb st hst
  · rw [List.pairwise_map]
    exact hsp.imp fun hab => hab
  · rw [List.pairwise_append]
    refine ⟨hrp.sublist (List.filter_sublist _), ?_, ?_⟩
    · rw [List.pairwise_map]
      refine hsp.imp ?_
      intro a b hab
      rintro ⟨_, he⟩
      exact hab he
    · intro a ha b hb
      obtain ⟨_, hda⟩ := List.mem_filter.mp ha
      rcases List.mem_map.mp hb with ⟨st, _, rfl⟩
      rintro ⟨he, _⟩
      rw [he] at hda
      simp at hda

lemma Inv_applyDay (t d : String) (S : Nat → String) {db : DB} (h : Inv db) :
    Inv (applyDay t d S db).2 := by
  unfold applyDay
  by_cases h1 : pyLt t d = true
  · simpa [h1] using h
  · rcases hp : parseDate d with _ | ⟨y, m, dd⟩
    · simp only [h1, hp, Bool.false_eq_true, if_false]
      exact Inv_applyDayCore d S h
    · by_cases hw : weekday y m dd = 6
      · simpa [h1, hp, hw] using h
      · simp only [h1, hp, hw, Bool.false_eq_true, if_false]
        exact Inv_applyDayCore d S h

lemma Inv_runOp (op : Op) {db : DB} (h : Inv db) : Inv (runOp db op) := by
  cases op with
  | applyDayOp t d S => exact Inv_applyDay t d S h
  | addStudentOp r n sem => exact Inv_addStudent r n sem h
  | deleteStudentOp sid => exact Inv_delete sid h

lemma Inv_runOps (ops : List Op) : Inv (runOps ops initDB) := by
  suffices h : ∀ db, Inv db → Inv (runOps ops db) from h initDB Inv_initDB
  induction ops with
  | nil => exact fun db h => h
  | cons op t ih => exact fun db h => ih (runOp db op) (Inv_runOp op h)

lemma charOfNat_digit_toNat : ∀ k, k < 10 → (Char.ofNat (48 + k)).toNat = 48 + k := by
  intro k hk
  interval_cases k <;> rfl

lemma dChar_toNat (n : Nat) : (dChar n).toNat = 48 + n % 10 := by
  unfold dChar
  exact charOfNat_digit_toNat _ (Nat.mod_lt _ (by omega))

lemma isDigit_charOfNat : ∀ k, k < 10 → isDigit (Char.ofNat (48 + k)) = true := by
  intro k hk
  interval_cases k <;> decide

lemma isDigit_dChar (n : Nat) : isDigit (dChar n) = true := by
  unfold dChar
  exact isDigit_charOfNat _ (Nat.mod_lt _ (by omega))

lemma digitVal_dChar (n : Nat) : digitVal (dChar n) = n % 10 := by
  unfold digitVal
  rw [dChar_toNat]
  omega

lemma pyLtChars_cons_same (c : Char) (xs ys : List Char) :
    pyLtChars (c :: xs) (c :: ys) = pyLtChars xs ys := by
  simp [pyLtChars]

lemma pyLtChars_dChar (a b : Nat) (xs ys : List Char) :
    pyLtChars (dChar a :: xs) (dChar b :: ys)
      = if a % 10 < b % 10 then true
        else if b % 10 < a % 10 then false
        else pyLtChars xs ys := by
  simp only [pyLtChars, dChar_toNat]
  split_ifs <;> first | rfl | (exfalso; omega)

lemma pyLtChars_two (a b : Nat) (xs ys : List Char) :
    pyLtChars (dChar (a / 10) :: dChar a :: xs) (dChar (b / 10) :: dChar b :: ys)
      = if a % 100 < b % 100 then true
        else if b % 100 < a % 100 then false
        else pyLtChars xs ys := by
  rw [pyLtChars_dChar, pyLtChars_dChar]
  split_ifs <;> first | rfl | (exfalso; omega)

lemma pyLtChars_four (a b : Nat) (ha : a < 10000) (hb : b < 10000) (xs ys : List Char) :
    pyLtChars (dChar (a / 1000) :: dChar (a / 100) :: dChar (a / 10) :: dChar a :: xs)
        (dChar (b / 1000) :: dChar (b / 100) :: dChar (b / 10) :: dChar b :: ys)
      = if a < b then true else if b < a then false else pyLtChars xs ys := by
  have e1 : a / 1000 = a / 100 / 10 := by omega
  have e2 : b / 1000 = b / 100 / 10 := by omega
  rw [e1, e2, pyLtChars_two, pyLtChars_two]
  split_ifs <;> first | rfl | (exfalso; omega)

lemma pyLt_canon_iff {y1 m1 d1 y2 m2 d2 : Nat}
    (hy1 : y1 < 10000) (hy2 : y2 < 10000) (hm1 : m1 ≤ 12) (hm2 : m2 ≤ 12)
    (hd1 : d1 ≤ 31) (hd2 : d2 ≤ 31) :
    (pyLt (canon y1 m1 d1) (canon y2 m2 d2) = true)
      ↔ (y1 < y2 ∨ (y1 = y2 ∧ (m1 < m2 ∨ (m1 = m2 ∧ d1 < d2)))) := by
  show pyLtChars (canonChars y1 m1 d1) (canonChars y2 m2 d2) = true ↔ _
  unfold canonChars
  rw [pyLtChars_four _ _ hy1 hy2, pyLtChars_cons_same, pyLtChars_two,
    pyLtChars_cons_same, pyLtChars_two]
  have e1 : m1 % 100 = m1 := Nat.mod_eq_of_lt (by omega)
  have e2 : m2 % 100 = m2 := Nat.mod_eq_of_lt (by omega)
  have e3 : d1 % 100 = d1 := Nat.mod_eq_of_lt (by omega)
  have e4 : d2 % 100 = d2 := Nat.mod_eq_of_lt (by omega)
  rw [e1, e2, e3, e4]
  split_ifs <;> simp [pyLtChars] <;> omega

lemma isLeap_iff (y : Nat) : isLeap y = true ↔ (y % 4 = 0 ∧ (y % 100 ≠ 0 ∨ y % 400 = 0)) := by
  unfold isLeap
  simp [Bool.and_eq_true, Bool.or_eq_true]

lemma daysInMonth_le (y m : Nat) : daysInMonth y m ≤ 31 := by
  unfold daysInMonth
  split_ifs <;> omega

lemma daysInMonth_ge (y m : Nat) : 28 ≤ daysInMonth y m := by
  unfold daysInMonth
  split_ifs <;> omega

lemma daysBeforeYear_le_succ (y : Nat) : daysBeforeYear y ≤ daysBeforeYear (y + 1) := by
  unfold daysBeforeYear
  omega

lemma daysBeforeYear_mono {a b : Nat} (h : a ≤ b) :
    daysBeforeYear a ≤ daysBeforeYear b := by
  induction b with
  | zero =>
    have : a = 0 := by omega
    subst this
    exact le_refl _
  | succ n ih =>
    rcases Nat.lt_succ_iff_lt_or_eq.mp (Nat.lt_succ_of_le h) with hlt | heq
    · exact (ih (by omega)).trans (daysBeforeYear_le_succ n)
    · subst heq
      exact le_refl _

lemma daysBeforeYear_succ (y : Nat) (hy : 1 ≤ y) :
    daysBeforeYear (y + 1) = daysBeforeYear y + 365 + (if isLeap y then 1 else 0) := by
  by_cases hL : isLeap y = true
  · rw [if_pos hL, isLeap_iff] at *
    unfold daysBeforeYear
    omega
  · rw [if_neg hL]
    rw [isLeap_iff] at hL
    unfold daysBeforeYear
    omega

lemma daysBeforeMonth_succ (y : Nat) {m : Nat} (h : 1 ≤ m) :
    daysBeforeMonth y (m + 1) = daysBeforeMonth y m + daysInMonth y m := by
  show (if m = 0 then 0 else daysBeforeMonth y m + daysInMonth y m) = _
  rw [if_neg (by omega)]

lemma daysBeforeMonth_mono (y : Nat) {m1 m2 : Nat} (h1 : 1 ≤ m1) (h : m1 < m2) :
    daysBeforeMonth y m1 + daysInMonth y m1 ≤ daysBeforeMonth y m2 := by
  induction m2 with
  | zero => omega
  | succ m ih =>
    rcases Nat.lt_succ_iff_lt_or_eq.mp h with hlt | heq
    · have hm1 : 1 ≤ m := by omega
      have := ih hlt
      rw [daysBeforeMonth_succ y hm1]
      omega
    · subst heq
      rw [daysBeforeMonth_succ y h1]

lemma daysBeforeMonth_bound (y : Nat) {m d : Nat} (hm1 : 1 ≤ m) (hm2 : m ≤ 12)
    (hd : d ≤ daysInMonth y m) :
    daysBeforeMonth y m + d ≤ 365 + (if isLeap y then 1 else 0) := by
  by_cases hL : isLeap y = true <;>
    (interval_cases m <;> simp_all [daysBeforeMonth, daysInMonth] <;> omega)

lemma toOrdinal_lt {y1 m1 d1 y2 m2 d2 : Nat}
    (h1 : ValidDate y1 m1 d1) (h2 : ValidDate y2 m2 d2)
    (hlex : y1 < y2 ∨ (y1 = y2 ∧ (m1 < m2 ∨ (m1 = m2 ∧ d1 < d2)))) :
    toOrdinal y1 m1 d1 < toOrdinal y2 m2 d2 := by
  obtain ⟨hy1, hy1b, hm1, hm1b, hd1, hd1b⟩ := h1
  obtain ⟨hy2, hy2b, hm2, hm2b, hd2, hd2b⟩ := h2
  unfold toOrdinal
  rcases hlex with hy | ⟨rfl, hm | ⟨rfl, hd⟩⟩
  · have hb1 : daysBeforeMonth y1 m1 + d1 ≤ 365 + (if isLeap y1 then 1 else 0) :=
      daysBeforeMonth_bound y1 hm1 hm1b hd1b
    have hb2 : daysBeforeYear (y1 + 1) = daysBeforeYear y1 + 365 + (if isLeap y1 then 1 else 0) :=
      daysBeforeYear_succ y1 hy1
    have hb3 : daysBeforeYear (y1 + 1) ≤ daysBeforeYear y2 := daysBeforeYear_mono (by omega)
    omega
  · have := daysBeforeMonth_mono y1 hm1 hm
    omega
  · omega

lemma toOrdinal_lt_iff {y1 m1 d1 y2 m2 d2 : Nat}
    (h1 : ValidDate y1 m1 d1) (h2 : ValidDate y2 m2 d2) :
    toOrdinal y1 m1 d1 < toOrdinal y2 m2 d2
      ↔ (y1 < y2 ∨ (y1 = y2 ∧ (m1 < m2 ∨ (m1 = m2 ∧ d1 < d2)))) := by
  constructor
  · intro hord
    rcases Nat.lt_trichotomy y1 y2 with hy | rfl | hy
    · exact Or.inl hy
    · rcases Nat.lt_trichotomy m1 m2 with hm | rfl | hm
      · exact Or.inr ⟨rfl, Or.inl hm⟩
      · rcases Nat.lt_trichotomy d1 d2 with hd | rfl | hd
        · exact Or.inr ⟨rfl, Or.inr ⟨rfl, hd⟩⟩
        · exact absurd hord (lt_irrefl _)
        · exact absurd hord (Nat.lt_asymm (toOrdinal_lt h2 h1 (Or.inr ⟨rfl, Or.inr ⟨rfl, hd⟩⟩)))
      · exact absurd hord (Nat.lt_asymm (toOrdinal_lt h2 h1 (Or.inr ⟨rfl, Or.inl hm⟩)))
    · exact absurd hord (Nat.lt_asymm (toOrdinal_lt h2 h1 (Or.inl hy)))
  · exact toOrdinal_lt h1 h2

lemma month2valid_dChar {m : Nat} (h1 : 1 ≤ m) (h2 : m ≤ 12) :
    month2valid (dChar (m / 10)) (dChar m) = true := by
  interval_cases m <;> decide

lemma day2valid_dChar {d : Nat} (h1 : 1 ≤ d) (h2 : d ≤ 31) :
    day2valid (dChar (d / 10)) (dChar d) = true := by
  interval_cases d <;> decide

lemma parseDate_canon {y m d : Nat} (h : ValidDate y m d) :
    parseDate (canon y m d) = some (y, m, d) := by
  obtain ⟨hy1, hy2, hm1, hm2, hd1, hd2⟩ := h
  have hd31 : d ≤ 31 := hd2.trans (daysInMonth_le y m)
  have hyv : digitVal (dChar (y / 1000)) * 1000 + digitVal (dChar (y / 100)) * 100
      + digitVal (dChar (y / 10)) * 10 + digitVal (dChar y) = y := by
    simp only [digitVal_dChar]
    omega
  have hmv : digitVal (dChar (m / 10)) * 10 + digitVal (dChar m) = m := by
    simp only [digitVal_dChar]
    omega
  have hdv : digitVal (dChar (d / 10)) * 10 + digitVal (dChar d) = d := by
    simp only [digitVal_dChar]
    omega
  show parseDateChars (canonChars y m d) = _
  unfold canonChars
  simp only [parseDateChars, parseMD, isDigit_dChar, month2valid_dChar hm1 hm2,
    day2valid_dChar (show 1 ≤ d by omega) hd31, hyv, hmv, hdv, Bool.and_self,
    Bool.true_and, Bool.and_true, beq_self_eq_true, if_true]
  rw [if_pos ⟨hy1, hd2⟩]

lemma filter_len_le_one_cases {α : Type} (l : List α) (h : l.length ≤ 1) :
    l = [] ∨ ∃ a, l = [a] := by
  match l with
  | [] => exact Or.inl rfl
  | [a] => exact Or.inr ⟨a, rfl⟩
  | a :: b :: t => simp at h

/-- Restricting the month's fetched records to one day of that month gives the
same records as filtering the whole table for that day: every record of the
day passes the SQL range condition. -/
lemma monthRecords_filter_day (y m i : Nat) (recs : List Record) (sid : Nat)
    (hy1 : 1 ≤ y) (hy2 : y ≤ 9999) (hm1 : 1 ≤ m) (hm2 : m ≤ 12)
    (hi : i < daysInMonth y m) :
    (monthRecords y m recs).filter
      (fun r => r.date == canon y m (i + 1) && r.student_id == sid)
    = recs.filter (fun r => r.date == canon y m (i + 1) && r.student_id == sid) := by
  have hdim31 : daysInMonth y m ≤ 31 := daysInMonth_le y m
  unfold monthRecords
  rw [List.filter_filter]
  refine List.filter_congr fun r _ => ?_
  by_cases hpd : (r.date == canon y m (i + 1) && r.student_id == sid) = true
  · have hdate : r.date = canon y m (i + 1) := by
      simp only [Bool.and_eq_true, beq_iff_eq] at hpd
      exact hpd.1
    have hlow : pyLt (canon y m (i + 1)) (canon y m 1) = false := by
      cases hb : pyLt (canon y m (i + 1)) (canon y m 1)
      · rfl
      · have := (pyLt_canon_iff (by omega) (by omega) hm2 hm2 (by omega) (by omega)).mp hb
        omega
    have hhigh : pyLt (canon y m (daysInMonth y m)) (canon y m (i + 1)) = false := by
      cases hb : pyLt (canon y m (daysInMonth y m)) (canon y m (i + 1))
      · rfl
      · have := (pyLt_canon_iff (by omega) (by omega) hm2 hm2 (by omega) (by omega)).mp hb
        omega
    rw [hpd, hdate, hlow, hhigh]
    rfl
  · rw [Bool.not_eq_true] at hpd
    rw [hpd]
    simp

/-- For one day of the month, the dict lookup agrees with existence of a
record: present exactly when the day's unique record for the student is
`present`, recorded exactly when such a record exists. -/
lemma attMap_day_eq (y m i : Nat) (recs : List Record) (sid : Nat)
    (hy1 : 1 ≤ y) (hy2 : y ≤ 9999) (hm1 : 1 ≤ m) (hm2 : m ≤ 12)
    (hi : i < daysInMonth y m)
    (huniq : recs.Pairwise (fun a b => ¬(a.date = b.date ∧ a.student_id = b.student_id)))
    (hstatus : ∀ r ∈ recs, r.status = "present" ∨ r.status = "absent") :
    ((attMapGet (monthRecords y m recs) (canon y m (i + 1)) sid == some "present")
      = recs.any (fun r => r.date == canon y m (i + 1) && r.student_id == sid &&
          r.status == "present"))
  ∧ ((attMapGet (monthRecords y m recs) (canon y m (i + 1)) sid == some "present" ||
      attMapGet (monthRecords y m recs) (canon y m (i + 1)) sid == some "absent")
      = recs.any (fun r => r.date == canon y m (i + 1) && r.student_id == sid)) := by
  have hcnt : (recs.filter
      (fun r => r.date == canon y m (i + 1) && r.student_id == sid)).length ≤ 1 := by
    rw [← List.countP_eq_length_filter]
    exact countP_le_one_of_pairwise huniq _ _
  unfold attMapGet
  rw [monthRecords_filter_day y m i recs sid hy1 hy2 hm1 hm2 hi]
  rcases filter_len_le_one_cases _ hcnt with hnil | ⟨r, hone⟩
  · rw [hnil]
    have hany2 : recs.any (fun r => r.date == canon y m (i + 1) && r.student_id == sid)
        = false := by
      rw [List.any_eq_false]
      intro x hx hpx
      have hmemf : x ∈ recs.filter
          (fun r => r.date == canon y m (i + 1) && r.student_id == sid) :=
        List.mem_filter.mpr ⟨hx, hpx⟩
      rw [hnil] at hmemf
      simp at hmemf
    have hany1 : recs.any (fun r => r.date == canon y m (i + 1) && r.student_id == sid &&
        r.status == "present") = false := by
      rw [List.any_eq_false]
      intro x hx hpx
      simp only [Bool.and_eq_true] at hpx
      have hmemf : x ∈ recs.filter
          (fun r => r.date == canon y m (i + 1) && r.student_id == sid) := by
        refine List.mem_filter.mpr ⟨hx, ?_⟩
        simp only [Bool.and_eq_true]
        exact hpx.1
      rw [hnil] at hmemf
      simp at hmemf
    exact ⟨by rw [hany1]; rfl, by rw [hany2]; rfl⟩
  · have hrmem : r ∈ recs.filter
        (fun r => r.date == canon y m (i + 1) && r.student_id == sid) := by
      rw [hone]
      exact List.mem_singleton_self r
    obtain ⟨hr_rec, hr_pred⟩ := List.mem_filter.mp hrmem
    have hrd : r.date = canon y m (i + 1) := by
      simp only [Bool.and_eq_true, beq_iff_eq] at hr_pred
      exact hr_pred.1
    have hrs : r.student_id = sid := by
      simp only [Bool.and_eq_true, beq_iff_eq] at hr_pred
      exact hr_pred.2
    rw [hone]
    constructor
    · rw [Bool.eq_iff_iff]
      constructor
      · intro hpres
        have hps : r.status = "present" := by simpa using hpres
        rw [List.any_eq_true]
        exact ⟨r, hr_rec, by simp [hrd, hrs, hps]⟩
      · intro hany
        rw [List.any_eq_true] at hany
        obtain ⟨x, hx, hpx⟩ := hany
        have hxf : x ∈ recs.filter
            (fun r => r.date == canon y m (i + 1) && r.student_id == sid) := by
          refine List.mem_filter.mpr ⟨hx, ?_⟩
          simp only [Bool.and_eq_true] at hpx ⊢
          exact hpx.1
        rw [hone] at hxf
        rcases List.mem_singleton.mp hxf with rfl
        simp only [Bool.and_eq_true, beq_iff_eq] at hpx
        simpa using hpx.2
    · rw [Bool.eq_iff_iff]
      constructor
      · intro _
        rw [List.any_eq_true]
        exact ⟨r, hr_rec, by simp [hrd, hrs]⟩
      · intro _
        rcases hstatus r hr_rec with hst | hst <;> simp [hst]

/-! ### Claim theorems -/

/-- C6: deleting a student removes exactly that student's attendance records
(all of them and nobody else's) and keeps every other student row — hence all
its fields, counters and marks included — unchanged. -/
theorem claim6_delete_frame (sid : Nat) (db : DB) :
    (∀ r : Record, r ∈ (delete_student sid db).records ↔
        r ∈ db.records ∧ r.student_id ≠ sid)
  ∧ (∀ s : Student, s ∈ (delete_student sid db).students ↔
        s ∈ db.students ∧ s.id ≠ sid)
  ∧ (delete_student sid db).nextId = db.nextId := by
  refine ⟨fun r => ?_, fun s => ?_, rfl⟩ <;>
    simp [delete_student, List.mem_filter]

/-- C7: roll-number validation accepts exactly the inputs that are non-empty
after stripping and fully match `[A-Za-z0-9-]{3,15}`; every rejection comes
with a non-empty human-readable reason; an accepted roll number is inserted
upper-cased; `C$1` is rejected while `CS1` is accepted and stored as `CS1`. -/
theorem claim7_roll_validation (roll name_in : String) (sem : Int) (db : DB) :
    ((validate_roll_number roll).1 = true ↔
        (pyStrip roll ≠ "" ∧ rollPatternMatch (pyStrip roll) = true))
  ∧ (validate_roll_number roll).2 ≠ ""
  ∧ ((validate_roll_number (pyStrip roll)).1 = true → 1 ≤ sem → sem ≤ 8 →
      pyStrip name_in ≠ "" →
      (db.students.all fun s => !(s.roll_no == pyUpper (pyStrip roll))) = true →
      (students_post roll name_in sem db).students
        = db.students ++
          [{ id := db.nextId, roll_no := pyUpper (pyStrip roll), name := pyStrip name_in,
             semester := sem, marks := .finite 0, total_attendance := 0,
             total_classes := 0 }])
  ∧ (validate_roll_number "C$1").1 = false
  ∧ (validate_roll_number "CS1").1 = true
  ∧ (students_post "CS1" "Ann" 1 initDB).students
      = [{ id := 1, roll_no := "CS1", name := "Ann", semester := 1,
           marks := .finite 0, total_attendance := 0, total_classes := 0 }] := by
  refine ⟨?_, ?_, ?_, by decide, by decide, by decide⟩
  · unfold validate_roll_number
    split_ifs with h1 h2
    · simp only [Bool.false_eq_true, false_iff, not_and]
      intro hne
      rcases h1 with h1 | h1
      · exact absurd (by rw [h1]; rfl) hne
      · exact absurd h1 hne
    · simp only [Bool.false_eq_true, false_iff, not_and]
      intro _ hpat
      rw [hpat] at h2
      simp at h2
    · simp only [true_iff]
      push_neg at h1
      exact ⟨h1.2, by simpa using h2⟩
  · unfold validate_roll_number
    split_ifs <;> simp
  · intro hv hs1 hs2 hname hall
    unfold students_post
    rw [if_neg (by rw [hv]; simp)]
    rw [if_neg (by omega)]
    rw [if_neg hname]
    rw [if_neg ?hdup]
    case hdup =>
      simp only [List.all_eq_true, Bool.not_eq_eq_eq_not, Bool.not_true, beq_eq_false_iff_ne,
        ne_eq] at hall
      simp only [List.any_eq_true, Bool.not_eq_true]
      rintro ⟨s, hmem, hbeq⟩
      exact hall s hmem (by simpa using hbeq)
    rfl

/-- C8: a marks input that parses as a (finite) real number is stored clamped
into `[0, 100]`; a non-parsing input is silently stored as 0; in particular
`abc` stores 0 and `150` stores 100. -/
theorem claim8_marks_clamp (s : String) (q : ℚ) :
    (pyFloatParse s = some (.finite q) → marksOf s = .finite (max 0 (min 100 q)))
  ∧ (pyFloatParse s = none → marksOf s = .finite 0)
  ∧ marksOf "abc" = .finite 0
  ∧ marksOf "150" = .finite 100 := by
  refine ⟨fun h => ?_, fun h => ?_, by decide, by decide⟩
  · unfold marksOf
    rw [h]
    exact pyClamp_finite q
  · unfold marksOf
    rw [h]

/-- Witness for C8 at the inputs `150` and `abc`. -/
theorem claim8_marks_clamp_witness :
    (pyFloatParse "150" = some (.finite 150)
      ∧ marksOf "150" = .finite (max 0 (min 100 150)))
  ∧ (pyFloatParse "abc" = none ∧ marksOf "abc" = .finite 0) :=
  ⟨⟨by decide, (claim8_marks_clamp "150" 150).1 (by decide)⟩,
   ⟨by decide, (claim8_marks_clamp "abc" 0).2.1 (by decide)⟩⟩

/-- C10: a date string that does not parse (`ValueError` from `strptime`) but
is lexicographically at most today's string is not rejected — the Sunday check
is skipped — and a record carrying the malformed string verbatim is inserted
for every student. -/
theorem claim10_malformed_date (todayStr s : String) (statuses : Nat → String) (db : DB)
    (hmal : parseDate s = none) (hpast : pyLt todayStr s = false) :
    (applyDay todayStr s statuses db).1 = .applied
  ∧ ∀ st ∈ db.students,
      ({ date := s, student_id := st.id, status := statuses st.id } : Record)
        ∈ (applyDay todayStr s statuses db).2.records := by
  unfold applyDay
  rw [hpast, hmal]
  refine ⟨rfl, fun st hst => ?_⟩
  show _ ∈ (applyDayCore s statuses db).records
  unfold applyDayCore
  exact List.mem_append_right _ (List.mem_map.mpr ⟨st, hst, rfl⟩)

/-- Witness for C10: `2025-02-30` does not parse, compares below
`2025-12-31`, and is inserted verbatim. -/
theorem claim10_malformed_date_witness :
    (parseDate "2025-02-30" = none ∧ pyLt "2025-12-31" "2025-02-30" = false)
  ∧ (applyDay "2025-12-31" "2025-02-30" (fun _ => "present")
       { students := [{ id := 1, roll_no := "CS1", name := "A", semester := 1,
                        marks := .finite 0, total_attendance := 0, total_classes := 0 }],
         records := [], nextId := 2 }).1 = .applied
  ∧ ({ date := "2025-02-30", student_id := 1, status := "present" } : Record)
      ∈ (applyDay "2025-12-31" "2025-02-30" (fun _ => "present")
          { students := [{ id := 1, roll_no := "CS1", name := "A", semester := 1,
                           marks := .finite 0, total_attendance := 0, total_classes := 0 }],
            records := [], nextId := 2 }).2.records :=
  ⟨⟨by decide, by decide⟩,
   (claim10_malformed_date "2025-12-31" "2025-02-30" (fun _ => "present") _
      (by decide) (by decide)).1,
   (claim10_malformed_date "2025-12-31" "2025-02-30" (fun _ => "present") _
      (by decide) (by decide)).2
     { id := 1, roll_no := "CS1", name := "A", semester := 1,
       marks := .finite 0, total_attendance := 0, total_classes := 0 }
     (by decide)⟩

/-- C2: re-submitting a date replaces the earlier submission — applying D
with S1 and then D with S2 gives exactly the state of applying D with S2 once
(records and counters alike); with S1 = S2 the second application changes
nothing; and the (3,4)-present-then-absent scenario lands on (4,5) then
(3,5). -/
theorem claim2_edit_replaces (todayStr d : String) (S1 S2 : Nat → String) (db : DB) :
    ((applyDay todayStr d S2 (applyDay todayStr d S1 db).2).2
        = (applyDay todayStr d S2 db).2)
  ∧ ((applyDay todayStr d S1 (applyDay todayStr d S1 db).2).2
        = (applyDay todayStr d S1 db).2)
  ∧ ((applyDay "2025-01-10" "2025-01-10" (fun _ => "present")
        { students := [{ id := 1, roll_no := "CS1", name := "A", semester := 1,
                         marks := .finite 0, total_attendance := 3, total_classes := 4 }],
          records := [], nextId := 2 }).2.students
      = [{ id := 1, roll_no := "CS1", name := "A", semester := 1,
           marks := .finite 0, total_attendance := 4, total_classes := 5 }])
  ∧ ((applyDay "2025-01-10" "2025-01-10" (fun _ => "absent")
        (applyDay "2025-01-10" "2025-01-10" (fun _ => "present")
          { students := [{ id := 1, roll_no := "CS1", name := "A", semester := 1,
                           marks := .finite 0, total_attendance := 3, total_classes := 4 }],
            records := [], nextId := 2 }).2).2.students
      = [{ id := 1, roll_no := "CS1", name := "A", semester := 1,
           marks := .finite 0, total_attendance := 3, total_classes := 5 }]) :=
  ⟨applyDay_snd_twice todayStr d S1 S2 db, applyDay_snd_twice todayStr d S1 S1 db,
   by decide, by decide⟩

/-- Witness for C7: the stripped input `" cs1 "` validates, and the route
stores the upper-cased roll number `CS1`. -/
theorem claim7_roll_validation_witness :
    (validate_roll_number (pyStrip " cs1 ")).1 = true
  ∧ (students_post " cs1 " "Ann" 1 initDB).students
      = initDB.students ++
        [{ id := initDB.nextId, roll_no := pyUpper (pyStrip " cs1 "), name := pyStrip "Ann",
           semester := 1, marks := .finite 0, total_attendance := 0, total_classes := 0 }] :=
  ⟨by decide,
   (claim7_roll_validation " cs1 " "Ann" 1 initDB).2.2.1
     (by decide) (by decide) (by decide) (by decide) (by decide)⟩

/-- C1: after any sequence of operations from a fresh database, every
student's `total_attendance` is the number of that student's `present`
records, `total_classes` the number of all of that student's records, and
`0 ≤ total_attendance ≤ total_classes`. -/
theorem claim1_counters_are_aggregates (ops : List Op) :
    ∀ s ∈ (runOps ops initDB).students,
      s.total_attendance = (pcount s.id (runOps ops initDB).records : Int)
      ∧ s.total_classes = (ccount s.id (runOps ops initDB).records : Int)
      ∧ 0 ≤ s.total_attendance ∧ s.total_attendance ≤ s.total_classes := by
  intro s hs
  obtain ⟨hc, -, -, -, -⟩ := Inv_runOps ops
  obtain ⟨h1, h2⟩ := hc s hs
  have hle : pcount s.id (runOps ops initDB).records
      ≤ ccount s.id (runOps ops initDB).records := by
    unfold pcount ccount
    refine List.countP_mono_left fun r _ hx => ?_
    simp only [Bool.and_eq_true] at hx
    exact hx.1
  refine ⟨h1, h2, ?_, ?_⟩
  · rw [h1]
    exact Int.natCast_nonneg _
  · rw [h1, h2]
    exact_mod_cast hle

/-- Witness for C1: one student added, then marked present once. -/
theorem claim1_counters_are_aggregates_witness :
    (({ id := 1, roll_no := "CS1", name := "A", semester := 1, marks := .finite 0,
        total_attendance := 1, total_classes := 1 } : Student)
      ∈ (runOps [Op.addStudentOp "CS1" "A" 1,
                 Op.applyDayOp "2025-01-11" "2025-01-10" (fun _ => "present")]
          initDB).students)
  ∧ ((1 : Int) = (pcount 1
        (runOps [Op.addStudentOp "CS1" "A" 1,
                 Op.applyDayOp "2025-01-11" "2025-01-10" (fun _ => "present")]
          initDB).records : Int)
      ∧ (1 : Int) = (ccount 1
        (runOps [Op.addStudentOp "CS1" "A" 1,
                 Op.applyDayOp "2025-01-11" "2025-01-10" (fun _ => "present")]
          initDB).records : Int)
      ∧ (0 : Int) ≤ 1 ∧ (1 : Int) ≤ 1) :=
  ⟨by decide,
   claim1_counters_are_aggregates
     [Op.addStudentOp "CS1" "A" 1,
      Op.applyDayOp "2025-01-11" "2025-01-10" (fun _ => "present")]
     { id := 1, roll_no := "CS1", name := "A", semester := 1, marks := .finite 0,
       total_attendance := 1, total_classes := 1 }
     (by decide)⟩

/-- C5: after any sequence of operations from a fresh database, the record
table holds at most one record per (date, student) pair — the delete-then-
insert protocol prevents duplicates even without a uniqueness constraint. -/
theorem claim5_at_most_one_record_per_day_student (ops : List Op) (d : String)
    (sid : Nat) :
    (runOps ops initDB).records.countP
      (fun r => r.date == d && r.student_id == sid) ≤ 1 := by
  obtain ⟨-, -, -, -, hrp⟩ := Inv_runOps ops
  exact countP_le_one_of_pairwise hrp d sid

/-- C4: for valid ISO dates, a submission is rejected exactly when the date
is strictly after today or falls on a Sunday, the two rejections carry
distinct reasons, and a rejection leaves the database untouched. -/
theorem claim4_rejection_policy (ty tm td y m d : Nat) (S : Nat → String) (db : DB)
    (ht : ValidDate ty tm td) (hv : ValidDate y m d) :
    ((applyDay (canon ty tm td) (canon y m d) S db).1
        = .rejected "Cannot mark attendance for future dates."
      ↔ toOrdinal ty tm td < toOrdinal y m d)
  ∧ ((applyDay (canon ty tm td) (canon y m d) S db).1
        = .rejected "Attendance cannot be marked for Sunday."
      ↔ (¬ toOrdinal ty tm td < toOrdinal y m d ∧ weekday y m d = 6))
  ∧ ((applyDay (canon ty tm td) (canon y m d) S db).1 ≠ .applied
      ↔ (toOrdinal ty tm td < toOrdinal y m d ∨ weekday y m d = 6))
  ∧ ((applyDay (canon ty tm td) (canon y m d) S db).1 ≠ .applied
      → (applyDay (canon ty tm td) (canon y m d) S db).2 = db)
  ∧ ("Cannot mark attendance for future dates." : String)
      ≠ "Attendance cannot be marked for Sunday." := by
  obtain ⟨ht1, ht2, ht3, ht4, ht5, ht6⟩ := ht
  obtain ⟨hv1, hv2, hv3, hv4, hv5, hv6⟩ := hv
  have hfut : (pyLt (canon ty tm td) (canon y m d) = true)
      ↔ toOrdinal ty tm td < toOrdinal y m d := by
    rw [pyLt_canon_iff (by omega) (by omega) ht4 hv4
      (le_trans ht6 (daysInMonth_le ty tm)) (le_trans hv6 (daysInMonth_le y m))]
    exact (toOrdinal_lt_iff ⟨ht1, ht2, ht3, ht4, ht5, ht6⟩
      ⟨hv1, hv2, hv3, hv4, hv5, hv6⟩).symm
  have hparse := parseDate_canon ⟨hv1, hv2, hv3, hv4, hv5, hv6⟩
  have hneFS : DayResult.rejected "Cannot mark attendance for future dates."
      ≠ DayResult.rejected "Attendance cannot be marked for Sunday." := by decide
  have hneFA : DayResult.rejected "Cannot mark attendance for future dates."
      ≠ DayResult.applied := by decide
  have hneSA : DayResult.rejected "Attendance cannot be marked for Sunday."
      ≠ DayResult.applied := by decide
  have hmsg : ("Cannot mark attendance for future dates." : String)
      ≠ "Attendance cannot be marked for Sunday." := by decide
  unfold applyDay
  simp only [hparse]
  by_cases hf : pyLt (canon ty tm td) (canon y m d) = true
  · have hord := hfut.mp hf
    rw [if_pos hf]
    exact ⟨⟨fun _ => hord, fun _ => rfl⟩,
      ⟨fun he => absurd he hneFS, fun hcon => absurd hord hcon.1⟩,
      ⟨fun _ => Or.inl hord, fun _ => hneFA⟩,
      fun _ => rfl, hmsg⟩
  · have hord := (not_iff_not.mpr hfut).mp hf
    rw [if_neg hf]
    by_cases hw : weekday y m d = 6
    · rw [if_pos hw]
      exact ⟨⟨fun he => absurd he.symm hneFS, fun hcon => absurd hcon hord⟩,
        ⟨fun _ => ⟨hord, hw⟩, fun _ => rfl⟩,
        ⟨fun _ => Or.inr hw, fun _ => hneSA⟩,
        fun _ => rfl, hmsg⟩
    · rw [if_neg hw]
      refine ⟨⟨fun he => absurd he.symm hneFA, fun hcon => absurd hcon hord⟩,
        ⟨fun he => absurd he.symm hneSA, fun hcon => absurd hcon.2 hw⟩,
        ⟨fun hne => absurd rfl hne, fun hcon => ?_⟩,
        fun hne => absurd rfl hne, hmsg⟩
      rcases hcon with hx | hx
      · exact absurd hx hord
      · exact absurd hx hw

/-- Witness for C4: with today = 2025-01-11, the Sunday 2025-01-05 is
rejected with the Sunday reason. -/
theorem claim4_rejection_policy_witness :
    ValidDate 2025 1 11 ∧ ValidDate 2025 1 5
  ∧ (applyDay (canon 2025 1 11) (canon 2025 1 5) (fun _ => "present") initDB).1
      = .rejected "Attendance cannot be marked for Sunday." :=
  ⟨by decide, by decide,
   (claim4_rejection_policy 2025 1 11 2025 1 5 (fun _ => "present") initDB
      (by decide) (by decide)).2.1.mpr ⟨by decide, by decide⟩⟩

/-- C9: for every year+month, the monthly matrix counts per student only the
calendar days of that month that carry a record for that student: presentCount
is the number of such days marked present, totalRecordedCount the number of
such days with any status, and a day without a record counts toward neither
(stated under the well-formedness of reachable data: unique (date, student)
pairs, statuses in {present, absent}, and no fetched record outside the
month's keys, which in Python would raise a KeyError). -/
theorem claim9_monthly_matrix (y m : Nat) (recs : List Record) (sid : Nat)
    (hy1 : 1 ≤ y) (hy2 : y ≤ 9999) (hm1 : 1 ≤ m) (hm2 : m ≤ 12)
    (huniq : recs.Pairwise (fun a b => ¬(a.date = b.date ∧ a.student_id = b.student_id)))
    (hstatus : ∀ r ∈ recs, r.status = "present" ∨ r.status = "absent")
    (hsafe : ∀ r ∈ recs,
      (!pyLt r.date (canon y m 1) && !pyLt (canon y m (daysInMonth y m)) r.date) = true →
      r.date ∈ monthDates y m) :
    monthlyPct y m recs sid = specMonthlyPct y m recs sid := by
  unfold monthlyPct specMonthlyPct
  refine congrArg₂ Prod.mk ?_ ?_
  · refine congrArg List.length (List.filter_congr fun ds hds => ?_)
    unfold monthDates at hds
    rcases List.mem_map.mp hds with ⟨i, hir, rfl⟩
    have hi : i < daysInMonth y m := List.mem_range.mp hir
    exact (attMap_day_eq y m i recs sid hy1 hy2 hm1 hm2 hi huniq hstatus).1
  · refine congrArg List.length (List.filter_congr fun ds hds => ?_)
    unfold monthDates at hds
    rcases List.mem_map.mp hds with ⟨i, hir, rfl⟩
    have hi : i < daysInMonth y m := List.mem_range.mp hir
    exact (attMap_day_eq y m i recs sid hy1 hy2 hm1 hm2 hi huniq hstatus).2

/-- Witness for C9 on a three-record January 2025 table. -/
theorem claim9_monthly_matrix_witness :
    ([({ date := "2025-01-10", student_id := 1, status := "present" } : Record),
      { date := "2025-01-11", student_id := 1, status := "absent" },
      { date := "2025-01-10", student_id := 2, status := "absent" }].Pairwise
        (fun a b => ¬(a.date = b.date ∧ a.student_id = b.student_id)))
  ∧ monthlyPct 2025 1
      [{ date := "2025-01-10", student_id := 1, status := "present" },
       { date := "2025-01-11", student_id := 1, status := "absent" },
       { date := "2025-01-10", student_id := 2, status := "absent" }] 1
    = specMonthlyPct 2025 1
      [{ date := "2025-01-10", student_id := 1, status := "present" },
       { date := "2025-01-11", student_id := 1, status := "absent" },
       { date := "2025-01-10", student_id := 2, status := "absent" }] 1 :=
  ⟨by decide,
   claim9_monthly_matrix 2025 1
     [{ date := "2025-01-10", student_id := 1, status := "present" },
      { date := "2025-01-11", student_id := 1, status := "absent" },
      { date := "2025-01-10", student_id := 2, status := "absent" }] 1
     (by decide) (by decide) (by decide) (by decide) (by decide)
     (by decide) (by decide)⟩

end AttendApp
